import Mathlib

/-
Verification of the wxfetch decode-and-render pipeline.

This file gives a shallow embedding of the repository's Rust sources
(src/metar.rs, src/metar/clouds.rs, src/metar/units.rs, src/metar/wxcodes.rs,
src/taf.rs, src/config.rs, src/position.rs) and proves properties of the
embedded definitions.  JSON values are modelled by the inductive `Json`
(serde_json's `Value`, with numbers split into the integer and the float
representation, floats modelled exactly as rationals); strings are modelled
as lists of characters where the rendering layer is concerned.  Regex-based
token grammars are modelled by an explicit leftmost-first backtracking
matcher over the same alternation lists the Rust code generates.
-/

set_option maxRecDepth 10000

namespace Wxfetch

/-! ### JSON values (serde_json::Value) -/

/-- Model of `serde_json::Value`.  Numbers are split: `int` models a value
for which `is_f64` is false and `as_i64` may succeed, `float` models an
f64-backed number (held exactly as a rational). -/
inductive Json where
  | null : Json
  | bool : Bool → Json
  | int : Int → Json
  | float : ℚ → Json
  | str : String → Json
  | arr : List Json → Json
  | obj : List (String × Json) → Json

/-- First value bound to `key`, as in `serde_json::Map` lookup. -/
def findKey : List (String × Json) → String → Option Json
  | [], _ => none
  | (k, v) :: rest, key => if k = key then some v else findKey rest key

/-- Embedding of `Value::get` on an object (returns `None` on non-objects). -/
def Json.get (j : Json) (key : String) : Option Json :=
  match j with
  | .obj kvs => findKey kvs key
  | _ => none

/-- Embedding of `Value::as_str`. -/
def Json.as_str : Json → Option String
  | .str s => some s
  | _ => none

/-- Embedding of `Value::as_i64`: succeeds on integer numbers within the `i64` range. -/
def Json.as_i64 : Json → Option Int
  | .int n => if -(2 ^ 63) ≤ n ∧ n < 2 ^ 63 then some n else none
  | _ => none

/-- Embedding of `Value::as_u64`: succeeds on non-negative integer numbers. -/
def Json.as_u64 : Json → Option Int
  | .int n => if 0 ≤ n ∧ n < 2 ^ 64 then some n else none
  | _ => none

/-- Embedding of `Value::as_f64` restricted to float-backed numbers (as used after
`is_f64` in the source). -/
def Json.as_f64 : Json → Option ℚ
  | .float q => some q
  | _ => none

/-- Embedding of `Value::is_f64`. -/
def Json.is_f64 : Json → Bool
  | .float _ => true
  | _ => false

/-- Embedding of `Value::as_array`. -/
def Json.as_array : Json → Option (List Json)
  | .arr xs => some xs
  | _ => none

/-! ### Terminal colors (the `colored` crate) -/

/-- The ANSI color palette used via the `colored` crate. -/
inductive Color where
  | black | red | green | yellow | blue | magenta | cyan | white
  | brightBlack | brightRed | brightGreen | brightYellow
  | brightBlue | brightMagenta | brightCyan | brightWhite
deriving DecidableEq, Repr

/-- ANSI foreground code of a color, as emitted by the `colored` crate. -/
def fgCode : Color → List Char
  | .black => ['3', '0']
  | .red => ['3', '1']
  | .green => ['3', '2']
  | .yellow => ['3', '3']
  | .blue => ['3', '4']
  | .magenta => ['3', '5']
  | .cyan => ['3', '6']
  | .white => ['3', '7']
  | .brightBlack => ['9', '0']
  | .brightRed => ['9', '1']
  | .brightGreen => ['9', '2']
  | .brightYellow => ['9', '3']
  | .brightBlue => ['9', '4']
  | .brightMagenta => ['9', '5']
  | .brightCyan => ['9', '6']
  | .brightWhite => ['9', '7']

/-- ANSI background code of a color. -/
def bgCode : Color → List Char
  | .black => ['4', '0']
  | .red => ['4', '1']
  | .green => ['4', '2']
  | .yellow => ['4', '3']
  | .blue => ['4', '4']
  | .magenta => ['4', '5']
  | .cyan => ['4', '6']
  | .white => ['4', '7']
  | .brightBlack => ['1', '0', '0']
  | .brightRed => ['1', '0', '1']
  | .brightGreen => ['1', '0', '2']
  | .brightYellow => ['1', '0', '3']
  | .brightBlue => ['1', '0', '4']
  | .brightMagenta => ['1', '0', '5']
  | .brightCyan => ['1', '0', '6']
  | .brightWhite => ['1', '0', '7']

/-- The ASCII escape character. -/
def escChar : Char := Char.ofNat 27

/-- A `colored::ColoredString`: text plus optional foreground and background
colors. -/
structure ColoredString where
  input : List Char
  fgcolor : Option Color := none
  bgcolor : Option Color := none
deriving DecidableEq, Repr

/-- The code section of the ANSI sequence for a fg/bg pair. -/
def joinCodes : Option Color → Option Color → List Char
  | some f, none => fgCode f
  | none, some b => bgCode b
  | some f, some b => fgCode f ++ ';' :: bgCode b
  | none, none => []

/-- Embedding of `Display` for `ColoredString`: plain text when unstyled, otherwise the
text wrapped in ANSI escape sequences. -/
def ColoredString.render (cs : ColoredString) : List Char :=
  match cs.fgcolor, cs.bgcolor with
  | none, none => cs.input
  | fg, bg =>
      escChar :: '[' :: (joinCodes fg bg ++ 'm' :: cs.input)
        ++ escChar :: '[' :: '0' :: 'm' :: []

/-! ### Decimal rendering of integers (Rust `Display` / `format!`) -/

/-- Decimal digit string of a natural number, most significant first. -/
def natStr (n : Nat) : List Char :=
  if n = 0 then ['0'] else ((Nat.digits 10 n).map Nat.digitChar).reverse

/-- Decimal rendering of an integer, as Rust `format!("{n}")`. -/
def intStr (n : Int) : List Char :=
  (if n < 0 then ['-'] else []) ++ natStr n.natAbs

/-- Zero-pad a digit string on the left to width `w`. -/
def padNat (w : Nat) (m : Nat) : List Char :=
  let s := natStr m
  List.replicate (w - s.length) '0' ++ s

/-- Rust `format!("{n:0w}")`: zero-padded, sign counted in the width. -/
def padInt (w : Nat) (n : Int) : List Char :=
  if n < 0 then '-' :: padNat (w - 1) n.natAbs else padNat w n.natAbs

/-! ### Units (src/metar/units.rs) -/

inductive PressureUnit where
  | Hpa | Inhg
deriving DecidableEq, Repr

inductive AltitudeUnit where
  | Ft | M
deriving DecidableEq, Repr

inductive SpeedUnit where
  | Kt | Kph | Mph
deriving DecidableEq, Repr

inductive TemperatureUnit where
  | C | F
deriving DecidableEq, Repr

inductive DistanceUnit where
  | M | Nm | Mi | Km
deriving DecidableEq, Repr

/-- ASCII lower-casing of one character (`char::to_ascii_lowercase`). -/
def asciiLower (c : Char) : Char :=
  if 'A' ≤ c ∧ c ≤ 'Z' then Char.ofNat (c.toNat + 32) else c

/-- ASCII lower-casing of a string (`str::to_lowercase` on ASCII input). -/
def strLower (s : String) : String :=
  ⟨s.data.map asciiLower⟩

/-- Embedding of `From<&str> for PressureUnit`. -/
def PressureUnit.from_str (s : String) : PressureUnit :=
  match strLower s with
  | "hpa" => .Hpa
  | "inhg" => .Inhg
  | _ => .Hpa

/-- Embedding of `From<&str> for AltitudeUnit`. -/
def AltitudeUnit.from_str (s : String) : AltitudeUnit :=
  match strLower s with
  | "ft" => .Ft
  | "m" => .M
  | _ => .Ft

/-- Embedding of `From<&str> for SpeedUnit`. -/
def SpeedUnit.from_str (s : String) : SpeedUnit :=
  match strLower s with
  | "kt" => .Kt
  | "kph" => .Kph
  | "mph" => .Mph
  | _ => .Kt

/-- Embedding of `From<&str> for TemperatureUnit`. -/
def TemperatureUnit.from_str (s : String) : TemperatureUnit :=
  match strLower s with
  | "c" => .C
  | "f" => .F
  | _ => .C

/-- Embedding of `From<&str> for DistanceUnit`. -/
def DistanceUnit.from_str (s : String) : DistanceUnit :=
  match strLower s with
  | "m" => .M
  | "nm" => .Nm
  | "mi" => .Mi
  | "km" => .Km
  | _ => .M

/-- The `Units` record of src/metar/units.rs. -/
structure Units where
  pressure : PressureUnit := .Hpa
  altitude : AltitudeUnit := .Ft
  wind_speed : SpeedUnit := .Kt
  temperature : TemperatureUnit := .C
  distance : DistanceUnit := .M
deriving DecidableEq, Repr

/-- Embedding of `Units::default()`. -/
def Units.default : Units := {}

/-- Embedding of `Units::from_json`. -/
def Units.from_json (json : Json) : Units :=
  match json.get "units" with
  | some units_json =>
      { pressure :=
          match (units_json.get "altimeter").bind Json.as_str with
          | some s => PressureUnit.from_str s
          | none => .Hpa
        altitude :=
          match (units_json.get "altitude").bind Json.as_str with
          | some s => AltitudeUnit.from_str s
          | none => .Ft
        wind_speed :=
          match (units_json.get "wind_speed").bind Json.as_str with
          | some s => SpeedUnit.from_str s
          | none => .Kt
        temperature :=
          match (units_json.get "temperature").bind Json.as_str with
          | some s => TemperatureUnit.from_str s
          | none => .C
        distance :=
          match (units_json.get "visibility").bind Json.as_str with
          | some s => DistanceUnit.from_str s
          | none => .M }
  | none => Units.default

/-! ### Position and configuration (src/position.rs, src/config.rs) -/

/-- A latitude/longitude pair (coordinates modelled exactly). -/
structure LatLong where
  lat : ℚ
  long : ℚ
deriving DecidableEq, Repr

/-- The requested position. -/
inductive Position where
  | Airfield : String → Position
  | GeoIP : Position
  | LatLong : LatLong → Position
deriving DecidableEq, Repr

/-- The threshold configuration of src/config.rs (time deltas in seconds). -/
structure Config where
  position : Position
  cloud_minimum : Int
  cloud_marginal : Int
  temp_minimum : Int
  spread_minimum : Int
  wind_var_maximum : Int
  wind_maximum : Int
  gust_maximum : Int
  age_maximum : Int
  age_marginal : Int
  visibility_minimum : Int
  visibility_marginal : Int
deriving DecidableEq, Repr

/-- Embedding of `Config::default()`. -/
def Config.default : Config where
  position := .GeoIP
  cloud_minimum := 6
  cloud_marginal := 15
  temp_minimum := 0
  spread_minimum := 3
  wind_var_maximum := 45
  wind_maximum := 15
  gust_maximum := 10
  age_maximum := 6 * 3600
  age_marginal := 3600
  visibility_minimum := 1500
  visibility_marginal := 5000

/-! ### Leftmost-first regex matching over alternation lists

The Rust code builds its token grammars as regex alternations generated from
the enums' `Display` forms and matches with `Regex::captures`, which uses
leftmost-first (preference-order) semantics.  We model exactly that: at each
start position, alternatives are tried in the order they appear in the
generated pattern, with full backtracking across the capture groups; the
first start position admitting a match wins. -/

/-- Strip a literal from the front of the input; `some rest` on success. -/
def stripLit : List Char → List Char → Option (List Char)
  | [], rest => some rest
  | _ :: _, [] => none
  | p :: ps, c :: cs => if c = p then stripLit ps cs else none

/-! ### Cloud-layer grammar (src/metar/clouds.rs) -/

/-- Cloud obscuration bands. -/
inductive Clouds where
  | Skc | Few | Sct | Brk | Ovc
deriving DecidableEq, Repr

/-- Embedding of `Display for Clouds`. -/
def Clouds.display : Clouds → String
  | .Skc => "SKC"
  | .Few => "FEW"
  | .Sct => "SCT"
  | .Brk => "BRK"
  | .Ovc => "OVC"

/-- Embedding of `FromStr for Clouds`. -/
def Clouds.from_str (s : String) : Option Clouds :=
  match strLower s with
  | "skc" => some .Skc
  | "few" => some .Few
  | "sct" => some .Sct
  | "brk" => some .Brk
  | "ovc" => some .Ovc
  | _ => none

/-- The alternatives of `Clouds::get_regex()` (`"SKC|FEW|SCT|BRK|OVC"`),
in generation order. -/
def cloudAlts : List String := ["SKC", "FEW", "SCT", "BRK", "OVC"]

/-- Greedy `\d*`: the maximal digit run at the front of the input. -/
def takeDigits : List Char → List Char × List Char
  | [] => ([], [])
  | c :: cs =>
      if c.isDigit then
        let (d, r) := takeDigits cs
        (c :: d, r)
      else ([], c :: cs)

/-- Match of `(obscuration)(\d*)` at one position: first alternative that is
a literal head of the input, then the greedy digit run. -/
def cloudMatchAt (s : List Char) : Option (String × List Char) :=
  cloudAlts.findSome? fun a =>
    (stripLit a.data s).map fun r => (a, (takeDigits r).1)

/-- Leftmost match of the cloud-layer pattern. -/
def cloudFind : List Char → Option (String × List Char)
  | [] => none
  | c :: rest =>
      match cloudMatchAt (c :: rest) with
      | some r => some r
      | none => cloudFind rest

/-- Numeric value of a digit run. -/
def natOfDigits (ds : List Char) : Nat :=
  ds.foldl (fun acc c => 10 * acc + (c.toNat - 48)) 0

/-- Embedding of `str::parse::<i64>` on a digit capture, with the source's
`unwrap_or(0)`: empty or out-of-range digit runs give 0. -/
def levelValue (ds : List Char) : Int :=
  if ds = [] then 0
  else if (natOfDigits ds : Int) < 2 ^ 63 then (natOfDigits ds : Int) else 0

/-! ### Weather-phenomenon grammar (src/metar/wxcodes.rs) -/

/-- The closed set of weather-phenomenon codes. -/
inductive WxCode where
  | Ra | Dz | Gr | Gs | Ic | Pl | Sg | Sn | Up | Br | Du
  | Fg | Fu | Hz | Py | Sa | Va | Ds | Fc | Po | Sq | Ss
deriving DecidableEq, Repr

/-- Embedding of `FromStr for WxCode`. -/
def WxCode.from_str (s : String) : Option WxCode :=
  match strLower s with
  | "ra" => some .Ra
  | "dz" => some .Dz
  | "gr" => some .Gr
  | "gs" => some .Gs
  | "ic" => some .Ic
  | "pl" => some .Pl
  | "sg" => some .Sg
  | "sn" => some .Sn
  | "up" => some .Up
  | "br" => some .Br
  | "du" => some .Du
  | "fg" => some .Fg
  | "fu" => some .Fu
  | "hz" => some .Hz
  | "py" => some .Py
  | "sa" => some .Sa
  | "va" => some .Va
  | "ds" => some .Ds
  | "fc" => some .Fc
  | "po" => some .Po
  | "sq" => some .Sq
  | "ss" => some .Ss
  | _ => none

/-- Weather-phenomenon intensity. -/
inductive WxCodeIntensity where
  | Moderate | Light | Heavy
deriving DecidableEq, Repr

/-- Embedding of `FromStr for WxCodeIntensity`. -/
def WxCodeIntensity.from_str (s : String) : Option WxCodeIntensity :=
  match strLower s with
  | "" => some .Moderate
  | "+" => some .Heavy
  | "-" => some .Light
  | _ => none

/-- Weather-phenomenon proximity. -/
inductive WxCodeProximity where
  | OnStation | Vicinity | Distant
deriving DecidableEq, Repr

/-- Embedding of `FromStr for WxCodeProximity`. -/
def WxCodeProximity.from_str (s : String) : Option WxCodeProximity :=
  match strLower s with
  | "" => some .OnStation
  | "vc" => some .Vicinity
  | "dsnt" => some .Distant
  | _ => none

/-- Weather-phenomenon descriptor. -/
inductive WxCodeDescription where
  | None | Ts | Bc | Bl | Dr | Fz | Mi | Pr | Sh
deriving DecidableEq, Repr

/-- Embedding of `FromStr for WxCodeDescription`. -/
def WxCodeDescription.from_str (s : String) : Option WxCodeDescription :=
  match strLower s with
  | "" => some .None
  | "ts" => some .Ts
  | "bc" => some .Bc
  | "bl" => some .Bl
  | "dr" => some .Dr
  | "fz" => some .Fz
  | "mi" => some .Mi
  | "pr" => some .Pr
  | "sh" => some .Sh
  | _ => none

/-- Preference-ordered alternatives of the intensity group `([+]|-)?`
(`WxCodeIntensity::get_regex()` is the literal `"[+]|-"`, the group is
optional so the empty string is tried last). -/
def intensityAlts : List String := ["+", "-", ""]

/-- Preference-ordered alternatives of the descriptor group
`((TS|BC|BL|DR|FZ|MI|PR|SH)?)`: `WxCodeDescription::get_regex()` skips the
empty display form of `None`, so the empty string only arises from the
optional group, tried last. -/
def descrAlts : List String := ["TS", "BC", "BL", "DR", "FZ", "MI", "PR", "SH", ""]

/-- The alternatives of the mandatory code group, in `EnumIter` order, from
`WxCode::get_regex()`. -/
def codeAlts : List String :=
  ["RA", "DZ", "GR", "GS", "IC", "PL", "SG", "SN", "UP", "BR", "DU",
   "FG", "FU", "HZ", "PY", "SA", "VA", "DS", "FC", "PO", "SQ", "SS"]

/-- Preference-ordered alternatives of the location group `((|VC|DSNT)?)`:
`WxCodeProximity::get_regex()` pushes a separator after the empty display
form of `OnStation`, so the generated alternation `"|VC|DSNT"` has a leading
empty branch, which leftmost-first semantics always prefers. -/
def locationAlts : List String := ["", "VC", "DSNT"]

/-- Match of the weather-phenomenon pattern
`(intensity?)(descr?)(code)(location?)` at one position, with the regex
engine's backtracking preference order; returns the four captures. -/
def wxMatchAt (s : List Char) : Option (String × String × String × String) :=
  intensityAlts.findSome? fun i =>
    (stripLit i.data s).bind fun r1 =>
      descrAlts.findSome? fun d =>
        (stripLit d.data r1).bind fun r2 =>
          codeAlts.findSome? fun c =>
            (stripLit c.data r2).bind fun r3 =>
              locationAlts.findSome? fun l =>
                (stripLit l.data r3).map fun _ => (i, d, c, l)

/-- Leftmost match of the weather-phenomenon pattern. -/
def wxFind : List Char → Option (String × String × String × String)
  | [] => none
  | c :: rest =>
      match wxMatchAt (c :: rest) with
      | some r => some r
      | none => wxFind rest

/-! ### Date-time values (chrono) -/

/-- A `chrono::DateTime<FixedOffset>`: calendar fields plus an offset in
minutes east of UTC. -/
structure DateTime where
  year : Int
  month : Nat
  day : Nat
  hour : Nat
  minute : Nat
  second : Nat
  nanos : Nat
  offset : Int
deriving DecidableEq, Repr

/-- Gregorian leap-year test. -/
def isLeapYear (y : Int) : Bool :=
  (y % 4 == 0 && y % 100 != 0) || y % 400 == 0

/-- Days in a month of a given year. -/
def daysInMonth (y : Int) (m : Nat) : Nat :=
  match m with
  | 1 => 31
  | 2 => if isLeapYear y then 29 else 28
  | 3 => 31
  | 4 => 30
  | 5 => 31
  | 6 => 30
  | 7 => 31
  | 8 => 31
  | 9 => 30
  | 10 => 31
  | 11 => 30
  | 12 => 31
  | _ => 0

/-- Value of a decimal digit character. -/
def digitVal (c : Char) : Option Nat :=
  if '0' ≤ c ∧ c ≤ '9' then some (c.toNat - 48) else none

/-- Two fixed decimal digits. -/
def parse2 : List Char → Option (Nat × List Char)
  | a :: b :: rest =>
      (digitVal a).bind fun x => (digitVal b).map fun y => (10 * x + y, rest)
  | _ => none

/-- Four fixed decimal digits. -/
def parse4 (s : List Char) : Option (Nat × List Char) :=
  (parse2 s).bind fun (hi, r) => (parse2 r).map fun (lo, r2) => (100 * hi + lo, r2)

/-- Optional fractional seconds `.d+`, scaled to nanoseconds (at most nine
digits significant, further digits consumed and ignored). -/
def parseFrac : List Char → Nat × List Char
  | '.' :: rest =>
      let (ds, r) := takeDigits rest
      if ds = [] then (0, '.' :: rest)
      else (natOfDigits (((ds ++ List.replicate 9 '0').take 9)), r)
  | s => (0, s)

/-- Time-zone designator: `Z`/`z`, or `±HH:MM` within `FixedOffset` bounds. -/
def parseOffset : List Char → Option (Int × List Char)
  | 'Z' :: rest => some (0, rest)
  | 'z' :: rest => some (0, rest)
  | '+' :: rest =>
      (parse2 rest).bind fun (h, r) =>
        match r with
        | ':' :: r2 =>
            (parse2 r2).bind fun (m, r3) =>
              if m ≤ 59 ∧ 60 * h + m < 1440 then some ((60 * h + m : Int), r3) else none
        | _ => none
  | '-' :: rest =>
      (parse2 rest).bind fun (h, r) =>
        match r with
        | ':' :: r2 =>
            (parse2 r2).bind fun (m, r3) =>
              if m ≤ 59 ∧ 60 * h + m < 1440 then some (-(60 * h + m : Int), r3) else none
        | _ => none
  | _ => none

/-- Embedding of `chrono::DateTime::parse_from_rfc3339`: strict
`YYYY-MM-DDTHH:MM:SS[.frac](Z|±HH:MM)` with calendar validation; a leap
second `:60` is stored, as in chrono, as second 59 with an extra second of
nanoseconds. -/
def parse_from_rfc3339 (s : String) : Option DateTime :=
  (parse4 s.data).bind fun (y, r) =>
  (match r with | '-' :: r' => some r' | _ => none).bind fun r =>
  (parse2 r).bind fun (mo, r) =>
  (match r with | '-' :: r' => some r' | _ => none).bind fun r =>
  (parse2 r).bind fun (d, r) =>
  (match r with | 'T' :: r' => some r' | 't' :: r' => some r' | _ => none).bind fun r =>
  (parse2 r).bind fun (h, r) =>
  (match r with | ':' :: r' => some r' | _ => none).bind fun r =>
  (parse2 r).bind fun (mi, r) =>
  (match r with | ':' :: r' => some r' | _ => none).bind fun r =>
  (parse2 r).bind fun (se, r) =>
  (let (ns, r') := parseFrac r; some (ns, r')).bind fun (ns, r) =>
  (parseOffset r).bind fun (off, r) =>
  if r = [] ∧ 1 ≤ mo ∧ mo ≤ 12 ∧ 1 ≤ d ∧ d ≤ daysInMonth (Int.ofNat y) mo
      ∧ h ≤ 23 ∧ mi ≤ 59 ∧ se ≤ 60 then
    if se = 60 then
      some ⟨Int.ofNat y, mo, d, h, mi, 59, ns + 1000000000, off⟩
    else
      some ⟨Int.ofNat y, mo, d, h, mi, se, ns, off⟩
  else none

/-! ### METAR fields (src/metar.rs) -/

/-- The `WxField` tagged union of report fields. -/
inductive WxField where
  | TimeStamp : DateTime → WxField
  | Wind : Int → Int → Int → SpeedUnit → WxField
  | WindVariability : Int → Int → WxField
  | Visibility : Int → WxField
  | Temperature : Int → Int → TemperatureUnit → WxField
  | Qnh : Int → PressureUnit → WxField
  | Clouds : Clouds → Int → WxField
  | WxCode : WxCode → WxCodeIntensity → WxCodeProximity → WxCodeDescription → WxField
  | Remarks : String → WxField
deriving DecidableEq, Repr

/-- Embedding of `wxcode_from_str`: leftmost match of the generated phenomenon pattern,
then `FromStr` on each capture. -/
def wxcode_from_str (repr : String) : Option WxField :=
  match wxFind repr.data with
  | none => none
  | some (i, d, c, l) =>
      (WxCode.from_str c).bind fun code =>
      (WxCodeIntensity.from_str i).bind fun intensity =>
      (WxCodeDescription.from_str d).bind fun descriptor =>
      (WxCodeProximity.from_str l).map fun proximity =>
        WxField.WxCode code intensity proximity descriptor

/-- Embedding of `get_wxcodes_from_json`: decode every `wx_codes[].repr`, skipping
failures. -/
def get_wxcodes_from_json (json : Json) : List WxField :=
  match (json.get "wx_codes").bind Json.as_array with
  | none => []
  | some codes =>
      codes.filterMap fun code => ((code.get "repr").bind Json.as_str).bind wxcode_from_str

/-- Embedding of `clouds_from_str`: leftmost match of the cloud pattern, `FromStr` on the
obscuration capture, level digits parsed with `unwrap_or(0)`. -/
def clouds_from_str (repr : String) : Option WxField :=
  match cloudFind repr.data with
  | none => none
  | some (obsc, levelDigits) =>
      (Clouds.from_str obsc).map fun cloud => WxField.Clouds cloud (levelValue levelDigits)

/-- Embedding of `get_clouds_from_json`: decode every `clouds[].repr`, skipping
failures. -/
def get_clouds_from_json (json : Json) : List WxField :=
  match (json.get "clouds").bind Json.as_array with
  | none => []
  | some clouds =>
      clouds.filterMap fun code => ((code.get "repr").bind Json.as_str).bind clouds_from_str

/-! ### Field extractors and report assembly (src/metar.rs) -/

/-- Embedding of `get_remarks`. -/
def get_remarks (json : Json) : Option WxField :=
  ((json.get "remarks").bind Json.as_str).map WxField.Remarks

/-- Embedding of `get_timestamp`. -/
def get_timestamp (json : Json) : Option WxField :=
  (((json.get "time").bind fun t => t.get "dt").bind Json.as_str).bind fun s =>
    (parse_from_rfc3339 s).map WxField.TimeStamp

/-! #### IEEE-754 binary64 arithmetic, modelled exactly

The float arm of `get_qnh` computes `as_f64()?.mul(100.).round() as i64`:
an f64 multiplication (whose result is the representable double nearest the
exact product, ties to even), `f64::round` (half away from zero), and a
saturating cast.  A double is an exact rational, so all three steps are
modelled exactly over integer numerator/denominator pairs; the fuel-based
recursions keep every definition kernel-reducible. -/

/-- Structural base-2 logarithm (fuel recursion): largest `k` with
`2 ^ k ≤ n` for `n ≥ 1`, and 0 for `n = 0`. -/
def natLog2F : Nat → Nat → Nat
  | 0, _ => 0
  | fuel + 1, n => if 2 ≤ n then natLog2F fuel (n / 2) + 1 else 0

/-- Base-2 logarithm of a natural number (the fuel `n` suffices since the
argument halves at each step). -/
def natLog2 (n : Nat) : Nat := natLog2F n n

/-- Decides `2 ^ e ≤ m / b` for a fraction `m / b` (with `b ≥ 1`) by an
integer comparison on whichever side the power lands. -/
def pow2LeFrac (b m : Nat) (e : Int) : Bool :=
  if 0 ≤ e then decide (b * 2 ^ e.toNat ≤ m) else decide (b ≤ m * 2 ^ (-e).toNat)

/-- Binary exponent of a fraction `a / b` (with `a ≠ 0`, `b ≥ 1`): the `e`
with `2 ^ e ≤ |a| / b < 2 ^ (e + 1)`.  The first guess from the bit lengths
is off by at most one and is corrected by comparison. -/
def fracExp (a : Int) (b : Nat) : Int :=
  let m := a.natAbs
  let e0 : Int := (natLog2 m : Int) - (natLog2 b : Int)
  if pow2LeFrac b m (e0 + 1) then e0 + 1
  else if pow2LeFrac b m e0 then e0
  else e0 - 1

/-- Round a fraction `c / d` (with `d ≥ 1`) to the nearest integer, ties to
even — IEEE-754 round-to-nearest-even. -/
def roundTiesEvenFrac (c : Int) (d : Nat) : Int :=
  let f := c.fdiv (d : Int)
  let r2 := 2 * (c - f * (d : Int))
  if r2 < (d : Int) then f
  else if (d : Int) < r2 then f + 1
  else if f % 2 = 0 then f else f + 1

/-- The IEEE-754 binary64 value nearest the fraction `a / b`, as a
significand/exponent pair `(n, u)` with value `n * 2 ^ u`: normals round at
52 bits below the binary exponent, subnormals at the fixed scale
`2 ^ (-1074)`.  An overflow past the finite range is left unclamped: the
only consumer casts to `i64` with saturation, which sends an infinity and
an out-of-range finite value to the same result. -/
def f64NearestFrac (a : Int) (b : Nat) : Int × Int :=
  if a = 0 then (0, 0)
  else
    let u := max (fracExp a b) (-1022) - 52
    let n :=
      if 0 ≤ u then roundTiesEvenFrac a (b * 2 ^ u.toNat)
      else roundTiesEvenFrac (a * 2 ^ (-u).toNat) b
    (n, u)

/-- Round a fraction `c / d` (with `d ≥ 1`) to the nearest integer, half
away from zero — Rust `f64::round`. -/
def roundHalfAwayFrac (c : Int) (d : Nat) : Int :=
  if c < 0 then -((2 * (-c) + (d : Int)).fdiv (2 * (d : Int)))
  else (2 * c + (d : Int)).fdiv (2 * (d : Int))

/-- Rust `as i64` on a float value: saturating cast (`NaN` cannot arise
here). -/
def i64SatCast (x : Int) : Int :=
  max (-(2 ^ 63)) (min x (2 ^ 63 - 1))

/-- Rust `.round() as i64` applied to the double `n * 2 ^ u`: round half
away from zero, then saturate at the `i64` bounds. -/
def f64RoundCast (n u : Int) : Int :=
  i64SatCast (if 0 ≤ u then n * 2 ^ u.toNat else roundHalfAwayFrac n (2 ^ (-u).toNat))

/-- The float arm of `get_qnh`, `qnh_val.as_f64()?.mul(100.).round() as i64`:
`q` is the exact value of the stored double; `q * 100` is carried out in f64
arithmetic (double nearest the exact product `q.num * 100 / q.den`), then
rounded half away from zero and cast with saturation. -/
def qnhFromF64 (q : ℚ) : Int :=
  let p := f64NearestFrac (q.num * 100) q.den
  f64RoundCast p.1 p.2

/-- Embedding of `get_qnh`: an `is_f64` value goes through the f64
multiply-round-cast pipeline `qnhFromF64`, any other value must yield an
`i64`, passed through unchanged. -/
def get_qnh (json : Json) (units : Units) : Option WxField :=
  ((json.get "altimeter").bind fun a => a.get "value").bind fun qnh_val =>
    match qnh_val with
    | .float q => some (WxField.Qnh (qnhFromF64 q) units.pressure)
    | v => v.as_i64.map fun n => WxField.Qnh n units.pressure

/-- Embedding of `get_temp`. -/
def get_temp (json : Json) (units : Units) : Option WxField :=
  (((json.get "temperature").bind fun t => t.get "value").bind Json.as_i64).bind fun temp =>
    ((((json.get "dewpoint").bind fun t => t.get "value").bind Json.as_i64)).map fun dewpoint =>
      WxField.Temperature temp dewpoint units.temperature

/-- The per-element extraction inside `get_wind_var`'s loop:
`dir.get("value")?.as_i64()?`. -/
def dirValue (dir : Json) : Option Int :=
  (dir.get "value").bind Json.as_i64

/-- The collection loop of `get_wind_var`: all elements must extract, in
order, or the whole field is absent. -/
def collectDirs : List Json → Option (List Int)
  | [] => some []
  | d :: ds =>
      match dirValue d with
      | none => none
      | some v => (collectDirs ds).map fun l => v :: l

/-- The body of `get_wind_var` on the decoded array: sort ascending, then
first and last element. -/
def wind_var_core (arr : List Json) : Option WxField :=
  match collectDirs arr with
  | none => none
  | some dirs =>
      let sorted := List.insertionSort (· ≤ ·) dirs
      match sorted.head?, sorted.getLast? with
      | some lo, some hi => some (WxField.WindVariability lo hi)
      | _, _ => none

/-- Embedding of `get_wind_var`. -/
def get_wind_var (json : Json) : Option WxField :=
  ((json.get "wind_variable_direction").bind Json.as_array).bind wind_var_core

/-- Embedding of `get_winds`: direction and speed mandatory, gusts default to 0. -/
def get_winds (json : Json) (units : Units) : Option WxField :=
  (((json.get "wind_direction").bind fun t => t.get "value").bind Json.as_i64).bind
    fun direction =>
  ((((json.get "wind_speed").bind fun t => t.get "value").bind Json.as_i64)).map
    fun strength =>
      let gusts :=
        (((json.get "wind_gust").bind fun g => g.get "value").bind Json.as_i64).getD 0
      WxField.Wind direction strength gusts units.wind_speed

/-- Embedding of `get_visibility`. -/
def get_visibility (json : Json) (_units : Units) : Option WxField :=
  (((json.get "visibility").bind fun t => t.get "value").bind Json.as_i64).map
    WxField.Visibility

/-- Embedding of `str::eq_ignore_ascii_case`: byte-wise comparison after
ASCII lower-casing. -/
def eqIgnoreAsciiCase (a b : String) : Bool :=
  a.data.map asciiLower == b.data.map asciiLower

/-- Embedding of `is_exact_match` from src/metar.rs. -/
def is_exact_match (station : String) (config : Config) : Bool :=
  match config.position with
  | .Airfield icao => eqIgnoreAsciiCase station icao
  | _ => true

/-- The `Metar` report structure. -/
structure Metar where
  icao_code : String
  fields : List WxField
  exact_match : Bool
deriving DecidableEq, Repr

/-- The field-assembly part of `Metar::from_json` (the sequence of optional
pushes followed by the code and cloud lists). -/
def metarFields (json : Json) : List WxField :=
  let units := Units.from_json json
  ([get_timestamp json, get_winds json units, get_wind_var json,
    get_visibility json units, get_temp json units, get_qnh json units].filterMap id)
    ++ get_wxcodes_from_json json ++ get_clouds_from_json json
    ++ (get_remarks json).toList

/-- Embedding of `Metar::from_json`.  Note the control flow of the source: a missing
`station` key leaves the station empty, while a present but non-string
`station` aborts with `None` (the `?` on `as_str`). -/
def Metar.from_json (json : Json) (config : Config) : Option Metar :=
  match json.get "station" with
  | some icao =>
      match icao.as_str with
      | none => none
      | some station =>
          some ⟨station, metarFields json, is_exact_match station config⟩
  | none => some ⟨"", metarFields json, is_exact_match "" config⟩

/-! ### Severity colourisers (src/metar.rs) -/

/-- The height-bucket color inside `colourise_clouds`. -/
def cloudAltColor (alt : Int) (config : Config) : Color :=
  if alt ≤ config.cloud_minimum then .red
  else if alt ≤ config.cloud_marginal then .yellow
  else .green

/-- The coverage color inside `colourise_clouds`. -/
def cloudCoverColor : Clouds → Color
  | .Ovc => .red
  | .Brk => .yellow
  | _ => .green

/-- Embedding of `colourise_clouds`: coverage-colored code letters followed by the
height-colored level. -/
def colourise_clouds (cloud : Clouds) (alt : Int) (config : Config) : ColoredString :=
  let res : ColoredString := ⟨cloud.display.data, some (cloudCoverColor cloud), none⟩
  let altstr : ColoredString := ⟨intStr alt, some (cloudAltColor alt config), none⟩
  ⟨res.render ++ altstr.render, none, none⟩

/-- Embedding of `colourise_visibility`. -/
def colourise_visibility (vis : Int) (config : Config) : ColoredString :=
  ⟨padInt 4 vis,
   some (if vis ≥ config.visibility_marginal then .green
         else if vis > config.visibility_minimum then .yellow
         else .red),
   none⟩

/-- The strength color inside `colourise_wind`. -/
def windStrengthColor (strength : Int) (config : Config) : Color :=
  if strength > config.wind_maximum then .red else .green

/-- The gust color inside `colourise_wind`. -/
def windGustColor (gusts strength : Int) (config : Config) : Color :=
  if gusts - strength > config.gust_maximum then .brightRed else .green

/-- Embedding of `colourise_wind`: direction and colored strength, a gust segment only
when `gusts > 0`, and a literal `KT` suffix; the unit argument is unused in
the source (`_unit`). -/
def colourise_wind (direction strength gusts : Int) (_unit : SpeedUnit)
    (config : Config) : ColoredString :=
  let dir_str := padInt 3 direction
  let strength_str : ColoredString :=
    ⟨padInt 2 strength, some (windStrengthColor strength config), none⟩
  let base : ColoredString := ⟨dir_str ++ strength_str.render, none, none⟩
  let withGust : ColoredString :=
    if 0 < gusts then
      ⟨base.render ++ 'G' ::
          (⟨padInt 2 gusts, some (windGustColor gusts strength config), none⟩ :
            ColoredString).render,
        none, none⟩
    else base
  ⟨withGust.render ++ ['K', 'T'], none, none⟩

/-! ### Forecasts (src/taf.rs) -/

/-- Forecast-period kinds. -/
inductive PeriodType where
  | Initial | From | Becoming | Temporary | Probability
deriving DecidableEq, Repr

/-- A forecast period or change group. -/
structure ForecastPeriod where
  period_type : PeriodType
  start_time : Option DateTime
  end_time : Option DateTime
  fields : List WxField
  probability : Option Nat
deriving DecidableEq, Repr

/-- The `Taf` report structure. -/
structure Taf where
  icao_code : String
  issue_time : DateTime
  validity_start : DateTime
  validity_end : DateTime
  forecast_periods : List ForecastPeriod
  exact_match : Bool
deriving DecidableEq, Repr

/-- Embedding of `parse_issue_time`. -/
def parse_issue_time (json : Json) : Option DateTime :=
  (((json.get "time").bind fun t => t.get "dt").bind Json.as_str).bind parse_from_rfc3339

/-- Embedding of `parse_validity_period`. -/
def parse_validity_period (json : Json) : Option (DateTime × DateTime) :=
  (((json.get "start_time").bind fun t => t.get "dt").bind Json.as_str).bind fun ss =>
  (((json.get "end_time").bind fun t => t.get "dt").bind Json.as_str).bind fun es =>
  (parse_from_rfc3339 ss).bind fun st =>
  (parse_from_rfc3339 es).map fun et => (st, et)

/-- The change-group indicator match inside `parse_change_group`. -/
def periodTypeOfStr (s : String) : Option PeriodType :=
  if s = "FM" then some .From
  else if s = "BECMG" then some .Becoming
  else if s = "TEMPO" then some .Temporary
  else if s = "PROB" then some .Probability
  else none

/-- Embedding of `json.get("type")?.as_str()?` followed by the indicator match. -/
def parse_period_type (json : Json) : Option PeriodType :=
  ((json.get "type").bind Json.as_str).bind periodTypeOfStr

/-- The optional start time of a change group. -/
def pcgStart (json : Json) : Option DateTime :=
  (((json.get "start_time").bind fun t => t.get "dt").bind Json.as_str).bind
    parse_from_rfc3339

/-- The optional end time of a change group. -/
def pcgEnd (json : Json) : Option DateTime :=
  (((json.get "end_time").bind fun t => t.get "dt").bind Json.as_str).bind
    parse_from_rfc3339

/-- The optional probability of a change group (`as u8` wraps). -/
def pcgProb (json : Json) : Option Nat :=
  (((json.get "probability").bind fun p => p.get "value").bind Json.as_u64).map
    fun p => (p.toNat % 256)

/-- The field extraction inside `parse_change_group` (wind, visibility,
weather codes, clouds; src/taf.rs supplies no units sub-tree, so the
default units apply). -/
def pcgFields (json : Json) : List WxField :=
  ([get_winds json Units.default, get_visibility json Units.default].filterMap id)
    ++ get_wxcodes_from_json json ++ get_clouds_from_json json

/-- Embedding of `parse_change_group`: the first array entry is the initial period, all
others need a recognised change indicator. -/
def parse_change_group (json : Json) (is_initial : Bool) : Option ForecastPeriod :=
  match (if is_initial then some PeriodType.Initial else parse_period_type json) with
  | none => none
  | some pt =>
      some ⟨pt, pcgStart json, pcgEnd json, pcgFields json, pcgProb json⟩

/-- The tail of the `enumerate` loop of `parse_forecast_periods`
(indices ≥ 1, never initial). -/
def collectTail : List Json → List ForecastPeriod
  | [] => []
  | c :: rest =>
      match parse_change_group c false with
      | some p => p :: collectTail rest
      | none => collectTail rest

/-- The `enumerate` loop of `parse_forecast_periods`: index 0 is parsed as
the initial period, the rest as change groups; failed entries are
skipped. -/
def collectPeriods : List Json → List ForecastPeriod
  | [] => []
  | c :: rest =>
      match parse_change_group c true with
      | some p => p :: collectTail rest
      | none => collectTail rest

/-- Embedding of `parse_forecast_periods`: missing `forecast` key fails, a non-array
`forecast` value yields an empty period list. -/
def parse_forecast_periods (json : Json) : Option (List ForecastPeriod) :=
  match json.get "forecast" with
  | none => none
  | some f =>
      match f.as_array with
      | none => some []
      | some arr => some (collectPeriods arr)

/-- Embedding of `Taf::from_json`: station, issue time, validity window and forecast
periods are all mandatory. -/
def Taf.from_json (json : Json) (config : Config) : Option Taf :=
  match (json.get "station").bind Json.as_str with
  | none => none
  | some station =>
      match parse_issue_time json with
      | none => none
      | some issue_time =>
          match parse_validity_period json with
          | none => none
          | some (vs, ve) =>
              match parse_forecast_periods json with
              | none => none
              | some periods =>
                  some ⟨station, issue_time, vs, ve, periods,
                        is_exact_match station config⟩

/-! ### Severity ordering -/

/-- Severity rank of a bucket color: bad (red) above marginal (yellow)
above good (anything else). -/
def severity : Color → Nat
  | .red => 2
  | .yellow => 1
  | _ => 0

/-! ### Claims -/

/-- Claim C4: `colourise_visibility` colors a visibility green exactly when
it is at least `visibility_marginal`, yellow exactly when it is below
`visibility_marginal` and strictly above `visibility_minimum`, and red
otherwise; the marginal bound is inclusive and the minimum bound
exclusive. -/
theorem c4_visibility_buckets : ∀ (vis : Int) (config : Config),
    ((colourise_visibility vis config).fgcolor = some Color.green ↔
      vis ≥ config.visibility_marginal) ∧
    ((colourise_visibility vis config).fgcolor = some Color.yellow ↔
      (vis < config.visibility_marginal ∧ vis > config.visibility_minimum)) ∧
    ((colourise_visibility vis config).fgcolor = some Color.red ↔
      (vis < config.visibility_marginal ∧ vis ≤ config.visibility_minimum)) := by
  intro vis config
  simp only [colourise_visibility]
  split_ifs with h1 h2 <;>
    refine ⟨?_, ?_, ?_⟩ <;> simp <;> omega

/-- Witness for C4: the default thresholds color visibility 9999 green. -/
theorem c4_visibility_buckets_witness :
    (colourise_visibility 9999 Config.default).fgcolor = some Color.green :=
  (c4_visibility_buckets 9999 Config.default).1.mpr (by decide)

/-- Claim C5: the height color inside `colourise_clouds` is
`cloudAltColor` (red at or below `cloud_minimum`, yellow at or below
`cloud_marginal`, green above), and its severity is monotonically
non-increasing as the height grows, for every coverage kind and threshold
configuration. -/
theorem c5_cloud_height_monotone :
    (∀ (cloud : Clouds) (alt : Int) (config : Config),
      colourise_clouds cloud alt config =
        ⟨(⟨cloud.display.data, some (cloudCoverColor cloud), none⟩ :
            ColoredString).render ++
          (⟨intStr alt, some (cloudAltColor alt config), none⟩ :
            ColoredString).render,
          none, none⟩) ∧
    (∀ (cloud : Clouds) (config : Config) (h1 h2 : Int), h1 ≤ h2 →
      severity (cloudAltColor h2 config) ≤ severity (cloudAltColor h1 config)) := by
  constructor
  · intro cloud alt config
    rfl
  · intro cloud config h1 h2 hle
    simp only [cloudAltColor]
    split_ifs <;> first | decide | (exfalso; omega)

/-- Witness for C5: with the default thresholds, raising a broken layer
from 5 to 20 does not increase the height color's severity. -/
theorem c5_cloud_height_monotone_witness :
    severity (cloudAltColor 20 Config.default) ≤ severity (cloudAltColor 5 Config.default) :=
  c5_cloud_height_monotone.2 Clouds.Brk Config.default 5 20 (by decide)

/-- Claim C8: `is_exact_match` holds exactly when the requested position is
an airfield whose code equals the station up to ASCII case, or the
requested position is not an airfield at all; concretely, `EDDK` matches
`Airfield "EDDK"`, `EDRK` does not, and GeoIP or coordinate positions match
any station. -/
theorem c8_exact_match :
    (∀ (station : String) (config : Config),
      is_exact_match station config = true ↔
        ((∃ icao, config.position = Position.Airfield icao ∧
            eqIgnoreAsciiCase station icao = true) ∨
          ∀ icao, config.position ≠ Position.Airfield icao)) ∧
    is_exact_match "EDDK" { Config.default with position := .Airfield "EDDK" } = true ∧
    is_exact_match "EDRK" { Config.default with position := .Airfield "EDDK" } = false ∧
    is_exact_match "EDRK" { Config.default with position := .GeoIP } = true ∧
    is_exact_match "EDRK"
      { Config.default with position := .LatLong ⟨10, 10⟩ } = true := by
  refine ⟨?_, by decide, by decide, by decide, by decide⟩
  intro station config
  cases hp : config.position with
  | Airfield icao =>
      simp only [is_exact_match, hp]
      constructor
      · intro h
        exact Or.inl ⟨icao, rfl, h⟩
      · rintro (⟨i, hi, he⟩ | hall)
        · cases hi
          exact he
        · exact absurd rfl (hall icao)
  | GeoIP =>
      simp only [is_exact_match, hp]
      refine iff_of_true trivial (Or.inr ?_)
      intro i h
      cases h
  | LatLong ll =>
      simp only [is_exact_match, hp]
      refine iff_of_true trivial (Or.inr ?_)
      intro i h
      cases h

/-- Witness for C8: a lower-case station matches its airfield request. -/
theorem c8_exact_match_witness :
    is_exact_match "eddk" { Config.default with position := .Airfield "EDDK" } = true :=
  (c8_exact_match.1 "eddk" { Config.default with position := .Airfield "EDDK" }).mpr
    (Or.inl ⟨"EDDK", rfl, by decide⟩)

/-- Claim C2 (evaluation at the failing inputs): the phenomenon grammar
loses the proximity capture — `RAVC` decodes with proximity `OnStation`
instead of `Vicinity`, because `WxCodeProximity::get_regex()` generates
`"|VC|DSNT"` whose leading empty branch always wins — and, the pattern
being unanchored, the invalid-code token `SHZZ` decodes to a spurious `HZ`
field instead of no field.  A control token without proximity (`-RA`)
round-trips, and a bare invalid code (`ZZ`) is rejected. -/
theorem c2_wxcode_eval :
    wxcode_from_str "RAVC" =
      some (WxField.WxCode .Ra .Moderate .OnStation .None) ∧
    wxcode_from_str "SHZZ" =
      some (WxField.WxCode .Hz .Moderate .OnStation .None) ∧
    wxcode_from_str "-RA" =
      some (WxField.WxCode .Ra .Light .OnStation .None) ∧
    wxcode_from_str "ZZ" = none := by
  refine ⟨?_, ?_, ?_, ?_⟩ <;> rfl

/-- The exact value of the IEEE-754 double stored for the JSON literal
`2.675`: 3011782250804019 / 2^50 ≈ 2.6749999999999998. -/
def qnh675 : ℚ := mkRat 3011782250804019 1125899906842624

/-- The exact value of the IEEE-754 double stored for the JSON literal
`29.92`: 2105432825795707 / 2^46. -/
def qnh2992 : ℚ := mkRat 2105432825795707 70368744177664

/-- Counterexample to claim C7 as stated: for the stored double of the JSON
literal `2.675`, the program (f64 multiplication, whose product rounds up
to the representable double 267.5, then `f64::round`) yields 268, while the
value multiplied by 100 exactly and rounded to the nearest integer — the
exact product is 267.49999999999998… — yields 267. -/
theorem c7_counterexample :
    get_qnh (Json.obj [("altimeter", Json.obj [("value", Json.float qnh675)])])
        Units.default = some (WxField.Qnh 268 PressureUnit.Hpa) ∧
    roundHalfAwayFrac (qnh675.num * 100) qnh675.den = 267 :=
  ⟨by decide, by decide⟩

/-- Claim C7 (amended): `get_qnh` passes integer altimeter values through
unchanged (within the `i64` range); a float-backed value is multiplied by
100 in f64 arithmetic — the product rounded to the nearest representable
double — then rounded to the nearest integer half away from zero and cast
to `i64` with saturation.  The stored double of `29.92` with resolved unit
inHg gives `2992`, `1013` with resolved unit hPa stays `1013`, and a huge
float (2^300) saturates at the `i64` maximum. -/
theorem c7_qnh_normalization :
    (∀ (n : Int) (u : Units), -(2 ^ 63) ≤ n → n < 2 ^ 63 →
      get_qnh (Json.obj [("altimeter", Json.obj [("value", Json.int n)])]) u =
        some (WxField.Qnh n u.pressure)) ∧
    (∀ (q : ℚ) (u : Units),
      get_qnh (Json.obj [("altimeter", Json.obj [("value", Json.float q)])]) u =
        some (WxField.Qnh (qnhFromF64 q) u.pressure)) ∧
    get_qnh (Json.obj [("altimeter", Json.obj [("value", Json.float qnh2992)])])
        (Units.from_json (Json.obj [("units", Json.obj [("altimeter", Json.str "inHg")])])) =
      some (WxField.Qnh 2992 PressureUnit.Inhg) ∧
    get_qnh (Json.obj [("altimeter", Json.obj [("value", Json.int 1013)])])
        (Units.from_json (Json.obj [("units", Json.obj [("altimeter", Json.str "hPa")])])) =
      some (WxField.Qnh 1013 PressureUnit.Hpa) ∧
    get_qnh (Json.obj [("altimeter", Json.obj [("value", Json.float ((2 ^ 300 : ℕ) : ℚ))])])
        Units.default =
      some (WxField.Qnh 9223372036854775807 PressureUnit.Hpa) := by
  have hint : ∀ (n : Int) (u : Units), -(2 ^ 63) ≤ n → n < 2 ^ 63 →
      get_qnh (Json.obj [("altimeter", Json.obj [("value", Json.int n)])]) u =
        some (WxField.Qnh n u.pressure) := by
    intro n u h1 h2
    have hv : Json.as_i64 (Json.int n) = some n := by
      simp only [Json.as_i64]
      exact if_pos ⟨h1, h2⟩
    have hstep : get_qnh (Json.obj [("altimeter", Json.obj [("value", Json.int n)])]) u =
        Option.map (fun m => WxField.Qnh m u.pressure) (Json.as_i64 (Json.int n)) := rfl
    rw [hstep, hv]
    rfl
  exact ⟨hint, fun q u => rfl, by decide, hint 1013 _ (by decide) (by decide), by decide⟩

/-- Witness for C7: the integer pass-through at 1013 hPa. -/
theorem c7_qnh_normalization_witness :
    get_qnh (Json.obj [("altimeter", Json.obj [("value", Json.int 1013)])])
        Units.default =
      some (WxField.Qnh 1013 PressureUnit.Hpa) :=
  c7_qnh_normalization.1 1013 Units.default (by decide) (by decide)

/-- Counterexample to claim C1 as stated: a METAR JSON with no `station`
key still decodes — `Metar::from_json` returns a report with an empty
station, not `None`. -/
theorem c1_counterexample :
    Metar.from_json (Json.obj []) Config.default = some ⟨"", [], true⟩ := rfl

/-- Claim C1 (amended): when the `station` key is absent `Metar::from_json`
returns a report with an empty station identifier (it fails only for a
present non-string `station`); and `Taf::from_json` returns no report
whenever the issue time or the validity window is absent or unparseable. -/
theorem c1_amended_fatal_failures : ∀ (json : Json) (config : Config),
    (json.get "station" = none →
      Metar.from_json json config =
        some ⟨"", metarFields json, is_exact_match "" config⟩) ∧
    (parse_issue_time json = none → Taf.from_json json config = none) ∧
    (parse_validity_period json = none → Taf.from_json json config = none) := by
  intro json config
  refine ⟨?_, ?_, ?_⟩
  · intro h
    simp [Metar.from_json, h]
  · intro h
    unfold Taf.from_json
    cases hs : (json.get "station").bind Json.as_str <;> simp [h]
  · intro h
    unfold Taf.from_json
    cases hs : (json.get "station").bind Json.as_str <;>
      cases hit : parse_issue_time json <;> simp [h]

/-- Witness for C1: a station-less METAR object decodes to the empty
station, and a forecast without an issue time fails to decode. -/
theorem c1_witness :
    Metar.from_json (Json.obj [("remarks", Json.str "NOSIG")]) Config.default =
      some ⟨"", metarFields (Json.obj [("remarks", Json.str "NOSIG")]),
            is_exact_match "" Config.default⟩ ∧
    Taf.from_json (Json.obj [("station", Json.str "EDDF")]) Config.default = none :=
  ⟨(c1_amended_fatal_failures (Json.obj [("remarks", Json.str "NOSIG")])
      Config.default).1 rfl,
    (c1_amended_fatal_failures (Json.obj [("station", Json.str "EDDF")])
      Config.default).2.1 rfl⟩

/-- Claim C9: `Metar::from_json` returns `None` exactly when the `station`
key is present with a non-string value; on every other input it returns a
report, with an empty station identifier when the key is absent. -/
theorem c9_metar_none_iff : ∀ (json : Json) (config : Config),
    ((Metar.from_json json config = none) ↔
      ∃ v, json.get "station" = some v ∧ v.as_str = none) ∧
    (json.get "station" = none →
      ∃ m, Metar.from_json json config = some m ∧ m.icao_code = "") := by
  intro json config
  constructor
  · cases hs : json.get "station" with
    | none => simp [Metar.from_json, hs]
    | some v =>
        cases hv : v.as_str with
        | none =>
            simp only [Metar.from_json, hs, hv]
            exact iff_of_true trivial ⟨v, rfl, hv⟩
        | some s =>
            simp [Metar.from_json, hs, hv]
  · intro h
    refine ⟨⟨"", metarFields json, is_exact_match "" config⟩, ?_, rfl⟩
    simp [Metar.from_json, h]

/-- Witness for C9: a numeric `station` value makes the decode fail. -/
theorem c9_metar_none_iff_witness :
    Metar.from_json (Json.obj [("station", Json.int 5)]) Config.default = none :=
  (c9_metar_none_iff (Json.obj [("station", Json.int 5)]) Config.default).1.mpr
    ⟨Json.int 5, rfl, rfl⟩

/-! ### Forecast-period invariant (C3) -/

/-- A recognised change indicator is never the initial kind. -/
theorem periodTypeOfStr_ne_initial {s : String} {pt : PeriodType}
    (h : periodTypeOfStr s = some pt) : pt ≠ PeriodType.Initial := by
  unfold periodTypeOfStr at h
  split_ifs at h <;> try cases h
  all_goals decide

/-- A non-first change group never parses to the initial kind. -/
theorem parse_change_group_false_ne_initial {json : Json} {p : ForecastPeriod}
    (h : parse_change_group json false = some p) :
    p.period_type ≠ PeriodType.Initial := by
  have h' : (match parse_period_type json with
      | none => none
      | some pt =>
          some (⟨pt, pcgStart json, pcgEnd json, pcgFields json, pcgProb json⟩ :
            ForecastPeriod)) = some p := h
  split at h'
  next => cases h'
  next pt hpt =>
    injection h' with h'
    subst h'
    show pt ≠ PeriodType.Initial
    unfold parse_period_type at hpt
    rcases hts : (json.get "type").bind Json.as_str with _ | s <;> rw [hts] at hpt
    · cases hpt
    · exact periodTypeOfStr_ne_initial hpt

/-- Every period in the tail of the `enumerate` loop is non-initial. -/
theorem collectTail_ne_initial {l : List Json} {p : ForecastPeriod}
    (hp : p ∈ collectTail l) : p.period_type ≠ PeriodType.Initial := by
  induction l with
  | nil => cases hp
  | cons c rest ih =>
      unfold collectTail at hp
      cases hc : parse_change_group c false with
      | none => rw [hc] at hp; exact ih hp
      | some q =>
          rw [hc] at hp
          rcases List.mem_cons.mp hp with rfl | hp2
          · exact parse_change_group_false_ne_initial hc
          · exact ih hp2

/-- The head of the `enumerate` loop over a non-empty array is the parsed
initial period. -/
theorem collectPeriods_cons (c : Json) (rest : List Json) :
    collectPeriods (c :: rest) =
      ⟨PeriodType.Initial, pcgStart c, pcgEnd c, pcgFields c, pcgProb c⟩ ::
        collectTail rest := rfl

/-- The period-sequence invariant of `parse_forecast_periods`. -/
theorem parse_forecast_periods_invariant {json : Json} {periods : List ForecastPeriod}
    (h : parse_forecast_periods json = some periods) :
    (∀ p, periods.head? = some p → p.period_type = PeriodType.Initial) ∧
    (∀ p, p ∈ periods.tail → p.period_type ≠ PeriodType.Initial) := by
  unfold parse_forecast_periods at h
  split at h
  next => cases h
  next f =>
    split at h
    next =>
      injection h with h
      subst h
      refine ⟨?_, ?_⟩ <;> intro p hp <;> cases hp
    next arr harr =>
      injection h with h
      subst h
      cases arr with
      | nil => refine ⟨?_, ?_⟩ <;> intro p hp <;> cases hp
      | cons c rest =>
          rw [collectPeriods_cons]
          constructor
          · intro p hp
            simp only [List.head?_cons, Option.some.injEq] at hp
            subst hp
            rfl
          · intro p hp
            simp only [List.tail_cons] at hp
            exact collectTail_ne_initial hp

/-- The forecast periods stored in a decoded `Taf` come from
`parse_forecast_periods`. -/
theorem taf_periods_eq {json : Json} {config : Config} {taf : Taf}
    (h : Taf.from_json json config = some taf) :
    parse_forecast_periods json = some taf.forecast_periods := by
  unfold Taf.from_json at h
  split at h
  next => cases h
  next station hs =>
    split at h
    next => cases h
    next it hit =>
      split at h
      next => cases h
      next vs ve hvp =>
        split at h
        next => cases h
        next periods hfp =>
          injection h with h
          rw [← h]
          exact hfp

/-- A forecast JSON with one initial block and one `BECMG` block. -/
def tafExampleJson : Json :=
  Json.obj
    [("station", Json.str "EDDF"),
     ("time", Json.obj [("dt", Json.str "2024-06-21T05:50:00Z")]),
     ("start_time", Json.obj [("dt", Json.str "2024-06-21T06:00:00Z")]),
     ("end_time", Json.obj [("dt", Json.str "2024-06-22T06:00:00Z")]),
     ("forecast", Json.arr [Json.obj [], Json.obj [("type", Json.str "BECMG")]])]

/-- The decoded value of `tafExampleJson`. -/
def tafExampleVal : Taf :=
  { icao_code := "EDDF"
    issue_time := ⟨2024, 6, 21, 5, 50, 0, 0, 0⟩
    validity_start := ⟨2024, 6, 21, 6, 0, 0, 0, 0⟩
    validity_end := ⟨2024, 6, 22, 6, 0, 0, 0, 0⟩
    forecast_periods :=
      [⟨PeriodType.Initial, none, none, [], none⟩,
       ⟨PeriodType.Becoming, none, none, [], none⟩]
    exact_match := true }

/-- Claim C3: in every decoded forecast the first period (if any) is the
initial one and all later periods carry a non-initial change kind; and the
concrete forecast with one initial block and one `BECMG` block yields
exactly two periods, the second of kind Becoming. -/
theorem c3_forecast_invariant :
    (∀ (json : Json) (config : Config) (taf : Taf),
      Taf.from_json json config = some taf →
        (∀ p, taf.forecast_periods.head? = some p →
          p.period_type = PeriodType.Initial) ∧
        (∀ p, p ∈ taf.forecast_periods.tail →
          p.period_type ≠ PeriodType.Initial)) ∧
    Taf.from_json tafExampleJson Config.default = some tafExampleVal ∧
    tafExampleVal.forecast_periods.map (fun p => p.period_type) =
      [PeriodType.Initial, PeriodType.Becoming] := by
  refine ⟨?_, by rfl, by rfl⟩
  intro json config taf h
  exact parse_forecast_periods_invariant (taf_periods_eq h)

/-- Witness for C3: the second period of the concrete `BECMG` forecast is
not initial. -/
theorem c3_forecast_invariant_witness :
    (⟨PeriodType.Becoming, none, none, [], none⟩ : ForecastPeriod).period_type ≠
      PeriodType.Initial :=
  (c3_forecast_invariant.1 tafExampleJson Config.default tafExampleVal
      c3_forecast_invariant.2.1).2
    ⟨PeriodType.Becoming, none, none, [], none⟩ (by simp [tafExampleVal])

/-! ### Wind-variability extraction (C6) -/

/-- Permutation compatibility of the collection loop of `get_wind_var`:
permuting the input array either fails on both sides or yields permuted
direction lists. -/
theorem collectDirs_perm {a1 a2 : List Json} (h : a1.Perm a2) :
    (collectDirs a1 = none ∧ collectDirs a2 = none) ∨
    ∃ l1 l2, collectDirs a1 = some l1 ∧ collectDirs a2 = some l2 ∧ l1.Perm l2 := by
  induction h with
  | nil => exact Or.inr ⟨[], [], rfl, rfl, .nil⟩
  | cons x h ih =>
      cases hx : dirValue x with
      | none =>
          exact Or.inl ⟨by simp [collectDirs, hx], by simp [collectDirs, hx]⟩
      | some v =>
          rcases ih with ⟨h1, h2⟩ | ⟨l1, l2, h1, h2, hp⟩
          · exact Or.inl ⟨by simp [collectDirs, hx, h1], by simp [collectDirs, hx, h2]⟩
          · exact Or.inr ⟨v :: l1, v :: l2, by simp [collectDirs, hx, h1],
              by simp [collectDirs, hx, h2], hp.cons v⟩
  | swap x y l =>
      cases hx : dirValue x with
      | none =>
          cases hy : dirValue y with
          | none => exact Or.inl ⟨by simp [collectDirs, hx, hy], by simp [collectDirs, hx, hy]⟩
          | some w => exact Or.inl ⟨by simp [collectDirs, hx, hy], by simp [collectDirs, hx, hy]⟩
      | some v =>
          cases hy : dirValue y with
          | none => exact Or.inl ⟨by simp [collectDirs, hx, hy], by simp [collectDirs, hx, hy]⟩
          | some w =>
              cases hl : collectDirs l with
              | none =>
                  exact Or.inl ⟨by simp [collectDirs, hx, hy, hl],
                    by simp [collectDirs, hx, hy, hl]⟩
              | some tl =>
                  exact Or.inr ⟨w :: v :: tl, v :: w :: tl,
                    by simp [collectDirs, hx, hy, hl],
                    by simp [collectDirs, hx, hy, hl], .swap v w tl⟩
  | trans h1 h2 ih1 ih2 =>
      rcases ih1 with ⟨ha, hb⟩ | ⟨l1, lb, ha, hb, hp1⟩ <;>
        rcases ih2 with ⟨hb2, hc⟩ | ⟨lb2, l2, hb2, hc, hp2⟩
      · exact Or.inl ⟨ha, hc⟩
      · rw [hb] at hb2; cases hb2
      · rw [hb] at hb2; cases hb2
      · rw [hb] at hb2
        injection hb2 with hb2
        subst hb2
        exact Or.inr ⟨l1, l2, ha, hc, hp1.trans hp2⟩

/-- Invariance of `wind_var_core` under permutation of the array: the
direction list is sorted before the bounds are read off. -/
theorem wind_var_core_perm {a1 a2 : List Json} (h : a1.Perm a2) :
    wind_var_core a1 = wind_var_core a2 := by
  rcases collectDirs_perm h with ⟨h1, h2⟩ | ⟨l1, l2, h1, h2, hp⟩
  · simp [wind_var_core, h1, h2]
  · simp only [wind_var_core, h1, h2]
    have hsort : List.insertionSort (· ≤ ·) l1 = List.insertionSort (· ≤ ·) l2 :=
      List.eq_of_perm_of_sorted
        (((List.perm_insertionSort _ l1).trans hp).trans
          (List.perm_insertionSort _ l2).symm)
        (List.sorted_insertionSort _ l1) (List.sorted_insertionSort _ l2)
    rw [hsort]

/-- In a `≤`-sorted list the head is a lower bound. -/
theorem sorted_head?_le {l : List Int} (hs : List.Sorted (· ≤ ·) l) {lo x : Int}
    (hh : l.head? = some lo) (hx : x ∈ l) : lo ≤ x := by
  cases l with
  | nil => cases hx
  | cons a t =>
      simp only [List.head?_cons, Option.some.injEq] at hh
      subst hh
      rcases List.mem_cons.mp hx with rfl | hx2
      · exact le_refl _
      · exact (List.sorted_cons.mp hs).1 _ hx2

/-- In a `≤`-sorted list the last element is an upper bound. -/
theorem sorted_le_getLast? {l : List Int} (hs : List.Sorted (· ≤ ·) l) {hi x : Int}
    (hh : l.getLast? = some hi) (hx : x ∈ l) : x ≤ hi := by
  induction l with
  | nil => cases hx
  | cons a t ih =>
      cases t with
      | nil =>
          simp only [List.getLast?_singleton, Option.some.injEq] at hh
          subst hh
          rcases List.mem_cons.mp hx with rfl | hx2
          · exact le_refl _
          · cases hx2
      | cons b t2 =>
          rw [List.getLast?_cons_cons] at hh
          rcases List.mem_cons.mp hx with rfl | hx2
          · have hmem : hi ∈ b :: t2 := by
              rcases List.mem_getLast?_eq_getLast (l := b :: t2) hh with ⟨hne, heq⟩
              rw [heq]
              exact List.getLast_mem hne
            exact (List.sorted_cons.mp hs).1 _ hmem
          · exact ih (List.sorted_cons.mp hs).2 hh hx2

/-- Claim C6: `get_wind_var` is invariant under permutation of the
`wind_variable_direction` array, and on a fully-decoded non-empty array it
returns the minimum and maximum direction; `[150, 80]` and `[80, 150]` both
give `{low 80, high 150}`, and an empty array gives no field. -/
theorem c6_wind_var_minmax :
    (∀ (a1 a2 : List Json), a1.Perm a2 →
      get_wind_var (Json.obj [("wind_variable_direction", Json.arr a1)]) =
        get_wind_var (Json.obj [("wind_variable_direction", Json.arr a2)])) ∧
    (∀ (arr : List Json) (dirs : List Int),
      collectDirs arr = some dirs → dirs ≠ [] →
      ∃ lo hi,
        get_wind_var (Json.obj [("wind_variable_direction", Json.arr arr)]) =
          some (WxField.WindVariability lo hi) ∧
        lo ∈ dirs ∧ hi ∈ dirs ∧ ∀ x ∈ dirs, lo ≤ x ∧ x ≤ hi) ∧
    get_wind_var (Json.obj [("wind_variable_direction",
        Json.arr [Json.obj [("value", Json.int 150)],
                  Json.obj [("value", Json.int 80)]])]) =
      some (WxField.WindVariability 80 150) ∧
    get_wind_var (Json.obj [("wind_variable_direction",
        Json.arr [Json.obj [("value", Json.int 80)],
                  Json.obj [("value", Json.int 150)]])]) =
      some (WxField.WindVariability 80 150) ∧
    get_wind_var (Json.obj [("wind_variable_direction", Json.arr [])]) = none := by
  refine ⟨?_, ?_, by decide, by decide, by rfl⟩
  · intro a1 a2 h
    have e1 : get_wind_var (Json.obj [("wind_variable_direction", Json.arr a1)]) =
        wind_var_core a1 := rfl
    have e2 : get_wind_var (Json.obj [("wind_variable_direction", Json.arr a2)]) =
        wind_var_core a2 := rfl
    rw [e1, e2]
    exact wind_var_core_perm h
  · intro arr dirs hc hne
    have e1 : get_wind_var (Json.obj [("wind_variable_direction", Json.arr arr)]) =
        wind_var_core arr := rfl
    rw [e1]
    have hperm := List.perm_insertionSort (α := Int) (· ≤ ·) dirs
    have hsorted := List.sorted_insertionSort (α := Int) (· ≤ ·) dirs
    simp only [wind_var_core, hc]
    cases hsort : List.insertionSort (· ≤ ·) dirs with
    | nil =>
        exfalso
        rw [hsort] at hperm
        exact hne hperm.nil_eq.symm
    | cons s0 st =>
        rw [hsort] at hperm hsorted
        cases hlast : (s0 :: st).getLast? with
        | none => rw [List.getLast?_eq_getLast_of_ne_nil (List.cons_ne_nil s0 st)] at hlast; cases hlast
        | some hi =>
            refine ⟨s0, hi, by simp [hlast], ?_, ?_, ?_⟩
            · exact hperm.subset (List.mem_cons_self s0 st)
            · refine hperm.subset ?_
              rcases List.mem_getLast?_eq_getLast (l := s0 :: st) hlast with ⟨hne2, heq⟩
              rw [heq]
              exact List.getLast_mem hne2
            · intro x hx
              have hx2 : x ∈ s0 :: st := hperm.symm.subset hx
              exact ⟨sorted_head?_le hsorted rfl hx2,
                sorted_le_getLast? hsorted hlast hx2⟩

/-- Witness for C6: swapping the two directions leaves the decoded field
unchanged. -/
theorem c6_wind_var_minmax_witness :
    get_wind_var (Json.obj [("wind_variable_direction",
        Json.arr [Json.obj [("value", Json.int 150)],
                  Json.obj [("value", Json.int 80)]])]) =
      get_wind_var (Json.obj [("wind_variable_direction",
        Json.arr [Json.obj [("value", Json.int 80)],
                  Json.obj [("value", Json.int 150)]])]) :=
  c6_wind_var_minmax.1 _ _
    (List.Perm.swap (Json.obj [("value", Json.int 80)])
      (Json.obj [("value", Json.int 150)]) [])

/-! ### Wind fragment shape (C10) -/

/-- Decimal digit characters are digits, in particular never `G`. -/
theorem digitChar_not_G {d : Nat} (hd : d < 10) : Nat.digitChar d ≠ 'G' := by
  interval_cases d <;> decide

/-- The decimal rendering of a natural number contains no `G`. -/
theorem natStr_not_G {n : Nat} {c : Char} (hc : c ∈ natStr n) : c ≠ 'G' := by
  unfold natStr at hc
  split_ifs at hc
  · simp only [List.mem_singleton] at hc
    subst hc
    decide
  · simp only [List.mem_reverse, List.mem_map] at hc
    rcases hc with ⟨d, hd, rfl⟩
    exact digitChar_not_G (Nat.digits_lt_base (by norm_num) hd)

/-- Zero-padded naturals contain no `G`. -/
theorem padNat_not_G {w m : Nat} {c : Char} (hc : c ∈ padNat w m) : c ≠ 'G' := by
  unfold padNat at hc
  rcases List.mem_append.mp hc with hc | hc
  · rw [List.eq_of_mem_replicate hc]
    decide
  · exact natStr_not_G hc

/-- Zero-padded integers contain no `G`. -/
theorem padInt_not_G {w : Nat} {n : Int} {c : Char} (hc : c ∈ padInt w n) : c ≠ 'G' := by
  unfold padInt at hc
  split_ifs at hc
  · rcases List.mem_cons.mp hc with rfl | hc
    · decide
    · exact padNat_not_G hc
  · exact padNat_not_G hc

/-- ANSI foreground codes contain no `G`. -/
theorem fgCode_not_G (col : Color) : ∀ c ∈ fgCode col, c ≠ 'G' := by
  cases col <;> decide

/-- The rendering of a foreground-colored string whose text avoids `G`
also avoids `G` (escape sequences consist of `ESC`, `[`, digits, `;`,
`m`). -/
theorem renderFg_not_G {col : Color} {txt : List Char}
    (htxt : ∀ c ∈ txt, c ≠ 'G') :
    ∀ c ∈ (⟨txt, some col, none⟩ : ColoredString).render, c ≠ 'G' := by
  intro c hc
  have hr : (⟨txt, some col, none⟩ : ColoredString).render =
      escChar :: '[' :: (fgCode col ++ 'm' :: txt) ++
        escChar :: '[' :: '0' :: 'm' :: [] := rfl
  rw [hr] at hc
  simp only [List.cons_append, List.mem_cons, List.mem_append] at hc
  rcases hc with rfl | rfl | hc | hc
  · decide
  · decide
  · rcases hc with hc | rfl | hc
    · exact fgCode_not_G col c hc
    · decide
    · exact htxt c hc
  · rcases hc with rfl | rfl | rfl | rfl | hc
    · decide
    · decide
    · decide
    · decide
    · cases hc

/-- Claim C10: the wind fragment does not depend on the speed-unit
argument, always ends in the literal `KT`, and contains a gust segment
(a `G` followed by the rendered gust value) exactly when `gusts > 0`. -/
theorem c10_wind_fragment :
    ∀ (d s g : Int) (u1 u2 : SpeedUnit) (config : Config),
      (colourise_wind d s g u1 config = colourise_wind d s g u2 config) ∧
      (∃ t, (colourise_wind d s g u1 config).input = t ++ ['K', 'T']) ∧
      ((∃ a b, (colourise_wind d s g u1 config).input = a ++ 'G' :: b) ↔ 0 < g) := by
  intro d s g u1 u2 config
  refine ⟨rfl, ⟨_, rfl⟩, ?_⟩
  by_cases hg : 0 < g
  · have hshape : (colourise_wind d s g u1 config).input =
        (padInt 3 d ++
            (⟨padInt 2 s, some (windStrengthColor s config), none⟩ :
              ColoredString).render) ++
          'G' :: ((⟨padInt 2 g, some (windGustColor g s config), none⟩ :
              ColoredString).render ++ ['K', 'T']) := by
      simp only [colourise_wind, if_pos hg]
      simp [ColoredString.render, List.append_assoc]
    exact iff_of_true ⟨_, _, hshape⟩ hg
  · have hshape : (colourise_wind d s g u1 config).input =
        (padInt 3 d ++
            (⟨padInt 2 s, some (windStrengthColor s config), none⟩ :
              ColoredString).render) ++ ['K', 'T'] := by
      simp only [colourise_wind, if_neg hg]
      simp [ColoredString.render, List.append_assoc]
    have hnoG : ∀ c ∈ (colourise_wind d s g u1 config).input, c ≠ 'G' := by
      rw [hshape]
      intro c hc
      rcases List.mem_append.mp hc with hc | hc
      · rcases List.mem_append.mp hc with hc | hc
        · exact padInt_not_G hc
        · exact renderFg_not_G (fun c2 hc2 => padInt_not_G hc2) c hc
      · have hlit : ∀ x ∈ (['K', 'T'] : List Char), x ≠ 'G' := by decide
        exact hlit c hc
    refine iff_of_false ?_ hg
    rintro ⟨a, b, hab⟩
    refine hnoG 'G' ?_ rfl
    rw [hab]
    exact List.mem_append.mpr (Or.inr (List.mem_cons_self _ _))

/-- Witness for C10: a 15-knot gust on a 10-knot wind produces a gust
segment. -/
theorem c10_wind_fragment_witness :
    (0 : Int) < 15 ∧
    ∃ a b, (colourise_wind 100 10 15 SpeedUnit.Kt Config.default).input =
      a ++ 'G' :: b :=
  ⟨by decide,
    ((c10_wind_fragment 100 10 15 SpeedUnit.Kt SpeedUnit.Mph Config.default).2.2).mpr
      (by decide)⟩

end Wxfetch
